import Mathlib

/-!
Shallow embedding of the timeline-reconciliation core of ViDubb
(`src/app.py`, class `VideoDubbing.__init__`, mainly lines 501-619),
together with the sentence segmenter (lines 271-293) and the speaker
attributor (lines 239, 457-472).

Conventions:
* all times are exact rationals (seconds), mirroring the Python floats;
* synthesized clip lengths are natural numbers of milliseconds, as
  measured by `len(AudioSegment)`;
* operations that raise in Python (`ZeroDivisionError`, `ValueError`,
  `IndexError`) are modelled with `Option` / `Except`;
* the durations produced by the external silence/atempo operations are
  modelled by their nominal values (the code re-measures files that
  pydub/ffmpeg quantize to milliseconds; that quantization is abstracted).
-/

namespace ViDubb

/-- Timing fields of one sentence record: `records[i][2]` (start) and
`records[i][3]` (end) in `app.py`. -/
structure SentenceRec where
  start : ℚ
  stop : ℚ
deriving DecidableEq, Repr

/-- One sentence as seen by the reconciliation loop: its record, the raw
synthesized clip length in milliseconds (`none` models the TTS collaborator
returning `None`, line 539), and whether the ffmpeg `atempo` call exits
with return code 0 (line 560). -/
structure Sentence where
  span : SentenceRec
  clipMs : Option ℕ
  stretchOk : Bool
deriving DecidableEq, Repr

/-- The three branches of the `theta` dispatch, lines 555-570. -/
inductive Regime where
  | stretch
  | drop
  | pad
deriving DecidableEq, Repr

/-- Branch selection of lines 555, 564, 567:
`if theta < 1 and theta > 0.44: ... elif theta < 0.44: ... else: ...`. -/
def selectRegime (theta : ℚ) : Regime :=
  if theta < 1 ∧ (0.44 : ℚ) < theta then Regime.stretch
  else if theta < (0.44 : ℚ) then Regime.drop
  else Regime.pad

/-- The audio written to `su_audio_chunks/i.wav` by the regime branch:
either the trimmed clip with an `atempo` speed factor applied (line 558),
pure silence replacing the utterance (lines 561-563 and 565-566), or
silence prepended to the untouched clip (lines 568-570). -/
inductive ClipOut where
  | stretched (orig speed : ℚ)
  | silenceRep (dur : ℚ)
  | padded (pre orig : ℚ)
deriving DecidableEq, Repr

/-- Nominal duration in seconds of the audio written by the regime branch
(re-measured at line 574). An `atempo=s` filter divides the duration by `s`. -/
def ClipOut.duration : ClipOut → ℚ
  | ClipOut.stretched orig speed => orig / speed
  | ClipOut.silenceRep d => d
  | ClipOut.padded pre orig => pre + orig

/-- The silence-budget split applied both at initialization (lines 504-509)
and after each sentence (lines 578-583): given a gap, return
`(previous_silence_time, natural_scilence)`, i.e. the credit carried
forward and the literal silence emitted now. -/
def silenceSplit (gap : ℚ) : ℚ × ℚ :=
  if (0.8 : ℚ) ≤ gap then ((0.8 : ℚ), gap - (0.8 : ℚ)) else (gap, 0)

/-- The per-sentence tracker update, lines 577-583: the gap to the next
sentence is `max(records[i+1][2] - records[i][3], 0)` and is then split. -/
def trackerStep (thisEnd nextStart : ℚ) : ℚ × ℚ :=
  silenceSplit (max (nextStart - thisEnd) 0)

/-- The constant trailing-artifact window trimmed from every synthesized
clip, line 513: `tip = 350` milliseconds. -/
def tip : ℕ := 350

/-- Python list slice `a[:k]` on a list of length `n` (with `k` a possibly
negative integer): the length of the result. -/
def pySliceTo (n : ℕ) (k : ℤ) : ℕ :=
  if 0 ≤ k then min k.toNat n else ((n : ℤ) + k).toNat

/-- Line 544, `audio = audio[:len(audio)-tip]`: length in milliseconds of
the trimmed clip. -/
def trimClip (n : ℕ) : ℕ := pySliceTo n ((n : ℤ) - (tip : ℤ))

/-- `lo`, line 548: the sentence's slot, `max(records[i][3] - records[i][2], 0)`. -/
def slotOf (r : SentenceRec) : ℚ := max (r.stop - r.start) 0

/-- The regime branch, lines 549-570, acting on the slot `lo`, the trimmed
clip duration `lt`, the carried credit `p` and the `atempo` exit status. -/
def reconcile (lo lt p : ℚ) (stretchOk : Bool) : ClipOut :=
  match selectRegime (lo / lt) with
  | Regime.stretch =>
      if stretchOk then ClipOut.stretched lt (1 / ((lo + p) / lt))
      else ClipOut.silenceRep (lo + p)
  | Regime.drop => ClipOut.silenceRep (lo + p)
  | Regime.pad => ClipOut.padded p lt

/-- What one loop iteration emits: the regime output, the shortfall
silence `max(lo - lt, 0)` of lines 586/590, and the extra gap silence
`natural_scilence` of line 586 (`0` in the last-sentence branch, line 590). -/
structure EmitInfo where
  out : ClipOut
  shortfall : ℚ
  extra : ℚ
deriving DecidableEq, Repr

/-- Log of one iteration of the loop at line 515: the credit on entry, the
credit on exit, and the emitted chunk (`none` when the iteration hit the
`continue` of line 541). -/
structure IterRec where
  pendingIn : ℚ
  pendingOut : ℚ
  emitted : Option EmitInfo
deriving DecidableEq, Repr

/-- Duration of the chunk file written by one iteration (`0` when the
iteration was skipped and wrote no file). -/
def IterRec.chunkDur (it : IterRec) : ℚ :=
  match it.emitted with
  | none => 0
  | some e => e.out.duration + e.shortfall + e.extra

/-- The reconciliation loop, lines 515-592, threading
`previous_silence_time`. Returns `none` when the trimmed clip length is
zero and `theta = lo/lt` raises `ZeroDivisionError` (line 549). -/
def runAux (p : ℚ) : (sents : List Sentence) → Option (List IterRec)
  | [] => some []
  | s :: rest =>
    match s.clipMs with
    | none => (runAux p rest).map (fun tl => ⟨p, p, none⟩ :: tl)
    | some n =>
      let lt : ℚ := (trimClip n : ℚ) / 1000
      if lt = 0 then none
      else
        let lo := slotOf s.span
        let out := reconcile lo lt p s.stretchOk
        let lt2 := out.duration
        let lo2 := s.span.stop - s.span.start + p
        match rest with
        | [] => some [⟨p, p, some ⟨out, max (lo2 - lt2) 0, 0⟩⟩]
        | next :: _ =>
          let pe := trackerStep s.span.stop next.span.start
          (runAux pe.1 rest).map
            (fun tl => ⟨p, pe.1, some ⟨out, max (lo2 - lt2) 0, pe.2⟩⟩ :: tl)
termination_by structural sents => sents

/-- The full pass, lines 501-619: initialization of the credit from the
leading gap (`records[0][2]`, raising `IndexError` on an empty record
list), the loop, and the final trailing pad
`abs(total_length - records[-1][3])` of line 616. Returns
`(leading silence prefix, per-iteration log, final pad)`. -/
def runAll (sents : List Sentence) (videoLen : ℚ) : Option (ℚ × List IterRec × ℚ) :=
  match sents with
  | [] => none
  | s0 :: rest =>
    let init := silenceSplit s0.span.start
    (runAux init.1 (s0 :: rest)).map
      (fun logs => (init.2, logs, |videoLen - ((rest.getLast?).getD s0).span.stop|))

/-- Sum of the per-sentence trailing silences (lines 586 and 590). -/
def trailingSum (logs : List IterRec) : ℚ :=
  (logs.map (fun it =>
    match it.emitted with
    | none => 0
    | some e => e.shortfall + e.extra)).sum

/-- Sum of the original inter-sentence gaps, as the tracker sees them. -/
def gapsSum : List Sentence → ℚ
  | s :: next :: rest => max (next.span.start - s.span.stop) 0 + gapsSum (next :: rest)
  | _ => 0

/-- Python `int()` truncation toward zero, applied to the diarization
interval endpoints at lines 463-464. -/
def pyInt (q : ℚ) : ℤ := if 0 ≤ q then ⌊q⌋ else ⌈q⌉

/-- One retained diarization turn of `speakers_rolls` (lines 111-114):
a `(start, end)` key mapped to a speaker label (labels are numbered). -/
structure Interval where
  start : ℚ
  stop : ℚ
  speaker : ℕ
deriving DecidableEq, Repr

/-- Modelled from the spec: `get_overlap` is imported from `tools/utils`
(line 57), a module absent from the sources; the spec defines the overlap
of two spans as `max(0, min(sentEnd, intEnd) - max(sentStart, intStart))`. -/
def get_overlap (a b : ℚ × ℚ) : ℚ := max 0 (min a.2 b.2 - max a.1 b.1)

/-- The overlap the code computes at lines 463-467: the interval's
endpoints are truncated with `int()` before `get_overlap` is applied. -/
def codeOverlap (s e : ℚ) (iv : Interval) : ℚ :=
  get_overlap (s, e) ((pyInt iv.start : ℚ), (pyInt iv.stop : ℚ))

/-- One step of the attribution loop, lines 462-472: the running
`(speaker, max_overlap)` pair is replaced only on strictly greater
overlap, so the first-seen maximum wins ties. -/
def attrStep (s e : ℚ) (best : ℕ × ℚ) (iv : Interval) : ℕ × ℚ :=
  if best.2 < codeOverlap s e iv then (iv.speaker, codeOverlap s e iv) else best

/-- Lines 457-472: starting from the default speaker and `max_overlap = 0`,
fold the attribution step over the intervals in their fixed (insertion)
order. -/
def attributeSpeaker (rolls : List Interval) (dflt : ℕ) (s e : ℚ) : ℕ :=
  (rolls.foldl (attrStep s e) (dflt, 0)).1

/-- The Speaker Attributor as the spec words it: the same loop but with
the raw, untruncated interval endpoints in the overlap formula. Kept for
comparison with `attributeSpeaker`. -/
def attributeSpeakerSpec (rolls : List Interval) (dflt : ℕ) (s e : ℚ) : ℕ :=
  (rolls.foldl (fun best iv =>
    if best.2 < get_overlap (s, e) (iv.start, iv.stop)
    then (iv.speaker, get_overlap (s, e) (iv.start, iv.stop))
    else best) (dflt, 0)).1

/-- Line 239, `max(list(speakers_rolls.values()), key=...count)`: the
first label attaining the maximal multiplicity, `none` on an empty list
(Python `max` raises there). -/
def pyMaxByCount (vals : List ℕ) : Option ℕ :=
  match vals with
  | [] => none
  | v :: rest =>
    some (rest.foldl (fun best x => if vals.count best < vals.count x then x else best) v)

/-- The call site at line 457: the loop's default speaker is the most
frequent one over all retained diarization intervals. -/
def speakerFor (rolls : List Interval) (s e : ℚ) : Option ℕ :=
  (pyMaxByCount (rolls.map Interval.speaker)).map
    (fun d => attributeSpeaker rolls d s e)

/-- One ASR word token, `[word, start, end]` of line 251. -/
structure WordTok where
  text : String
  start : ℚ
  stop : ℚ

/-- The flattened character stream of all word tokens, which the `f`
counter of lines 280-289 walks: position `k` carries the timestamps of the
word containing the `k`-th character. -/
def flatTimes (ts : List WordTok) : List (ℚ × ℚ) :=
  ts.flatMap (fun w => List.replicate w.text.length (w.start, w.stop))

/-- Lines 272-291 for one sentence starting at flattened character offset
`off` and holding `len` characters: for each character matched by some
word, that word's start and end are both appended to `starts`. -/
def collectTimes (ts : List WordTok) (off len : ℕ) : List ℚ :=
  (List.range len).flatMap (fun j =>
    match (flatTimes ts).get? (off + j) with
    | some se => [se.1, se.2]
    | none => [])

/-- Python `min` of a list; `none` models the `ValueError` raised on an
empty sequence. -/
def listMin : List ℚ → Option ℚ
  | [] => none
  | x :: xs => some (xs.foldl min x)

/-- Python `max` of a list; `none` models the `ValueError` raised on an
empty sequence. -/
def listMax : List ℚ → Option ℚ
  | [] => none
  | x :: xs => some (xs.foldl max x)

/-- Line 292, `[min(starts), max(starts)]`: the sentence span. The
`Except.error` case models the uncaught `ValueError` that aborts the run
when no character of the sentence matched any word timestamp. -/
def sentenceSpan (ts : List WordTok) (off len : ℕ) : Except Unit (ℚ × ℚ) :=
  match listMin (collectTimes ts off len), listMax (collectTimes ts off len) with
  | some a, some b => Except.ok (a, b)
  | _, _ => Except.error ()

lemma selectRegime_stretch_iff (theta : ℚ) :
    selectRegime theta = Regime.stretch ↔ (0.44 : ℚ) < theta ∧ theta < 1 := by
  unfold selectRegime
  split_ifs with h1 h2
  · exact iff_of_true rfl ⟨h1.2, h1.1⟩
  · exact iff_of_false (by decide) fun hand => absurd h2 (not_lt.mpr hand.1.le)
  · exact iff_of_false (by decide) fun hand => h1 ⟨hand.2, hand.1⟩

lemma selectRegime_drop_iff (theta : ℚ) :
    selectRegime theta = Regime.drop ↔ theta < (0.44 : ℚ) := by
  unfold selectRegime
  split_ifs with h1 h2
  · exact iff_of_false (by decide) (not_lt.mpr h1.2.le)
  · exact iff_of_true rfl h2
  · exact iff_of_false (by decide) h2

lemma selectRegime_pad_iff (theta : ℚ) :
    selectRegime theta = Regime.pad ↔ 1 ≤ theta ∨ theta = (0.44 : ℚ) := by
  unfold selectRegime
  split_ifs with h1 h2
  · refine iff_of_false (by decide) ?_
    rintro (hge | heq)
    · exact absurd h1.1 (not_lt.mpr hge)
    · exact absurd (heq ▸ h1.2) (lt_irrefl _)
  · refine iff_of_false (by decide) ?_
    rintro (hge | heq)
    · linarith
    · exact absurd (heq ▸ h2) (lt_irrefl _)
  · refine iff_of_true rfl ?_
    by_cases hlt : theta < 1
    · right
      rcases not_and_or.mp h1 with hbad | hsmall
      · exact absurd hlt hbad
      · exact le_antisymm (not_lt.mp hsmall) (not_lt.mp h2)
    · exact Or.inl (not_lt.mp hlt)

/-- C1 (amended): the branch of the Timing Reconciler is a pure function
of `theta = slot / clipDuration`: the stretch regime is taken iff
`0.44 < theta < 1`, the drop regime (silence of `slot + pendingSilence`)
iff `theta < 0.44` (strictly), and the pad regime iff `theta >= 1` or
`theta = 0.44` exactly. -/
theorem c1_regime_selection (lo lt p : ℚ) (ok : Bool) :
    (selectRegime (lo / lt) = Regime.stretch ↔
      (0.44 : ℚ) < lo / lt ∧ lo / lt < 1) ∧
    (selectRegime (lo / lt) = Regime.drop ↔ lo / lt < (0.44 : ℚ)) ∧
    (selectRegime (lo / lt) = Regime.pad ↔ 1 ≤ lo / lt ∨ lo / lt = (0.44 : ℚ)) ∧
    (lo / lt < (0.44 : ℚ) → reconcile lo lt p ok = ClipOut.silenceRep (lo + p)) := by
  refine ⟨selectRegime_stretch_iff _, selectRegime_drop_iff _,
    selectRegime_pad_iff _, fun h => ?_⟩
  have hd := (selectRegime_drop_iff (lo / lt)).mpr h
  simp [reconcile, hd]

/-- Witness for C1 at `lo = 1, lt = 4, p = 1/10`: `theta = 1/4 < 0.44`,
so the utterance is replaced by silence of `slot + pendingSilence`. -/
theorem c1_regime_selection_witness :
    reconcile 1 4 (1 / 10) true = ClipOut.silenceRep (1 + 1 / 10) :=
  (c1_regime_selection 1 4 (1 / 10) true).2.2.2 (by decide!)

/-- C1 counterexample: at `theta = 0.44` exactly, the code selects the pad
regime, not the drop regime the claim requires for `theta <= 0.44`. -/
theorem c1_boundary_cex :
    selectRegime (0.44 : ℚ) = Regime.pad ∧
    ((0.44 : ℚ) ≤ (0.44 : ℚ) ∧ selectRegime (0.44 : ℚ) ≠ Regime.drop) ∧
    ¬ (1 : ℚ) ≤ (0.44 : ℚ) := by decide!

/-- C4: after sentence `i`, the tracker computes
`gap = max(nextStart - thisEnd, 0)`; if `gap >= 0.8` it carries `0.8`
and returns `gap - 0.8` as extra silence, otherwise it carries `gap`
and returns `0`. -/
theorem c4_tracker_update (thisEnd nextStart : ℚ) :
    ((0.8 : ℚ) ≤ max (nextStart - thisEnd) 0 →
      trackerStep thisEnd nextStart =
        ((0.8 : ℚ), max (nextStart - thisEnd) 0 - (0.8 : ℚ))) ∧
    (max (nextStart - thisEnd) 0 < (0.8 : ℚ) →
      trackerStep thisEnd nextStart = (max (nextStart - thisEnd) 0, 0)) := by
  unfold trackerStep silenceSplit
  constructor
  · intro h
    rw [if_pos h]
  · intro h
    rw [if_neg (not_le.mpr h)]

/-- Witness for C4, the spec scenario D: a gap of `1.2 s` yields a carried
credit of `0.8` and `0.4` of extra silence appended now. -/
theorem c4_tracker_update_witness : trackerStep 0 (6 / 5) = (4 / 5, 2 / 5) :=
  ((c4_tracker_update 0 (6 / 5)).1 (by decide!)).trans (by decide!)

/-- C5: in the stretch regime the speed factor is `1 / targetRatio` with
`targetRatio = (slot + pendingSilence) / clipDuration`, and when the
stretch tool fails the output is pure silence of `slot + pendingSilence`. -/
theorem c5_stretch_factor (lo lt p : ℚ)
    (h1 : (0.44 : ℚ) < lo / lt) (h2 : lo / lt < 1) :
    reconcile lo lt p true = ClipOut.stretched lt (1 / ((lo + p) / lt)) ∧
    reconcile lo lt p false = ClipOut.silenceRep (lo + p) := by
  have hs := (selectRegime_stretch_iff (lo / lt)).mpr ⟨h1, h2⟩
  constructor <;> simp [reconcile, hs]

/-- Witness for C5, the spec scenario A: `slot = 2.0`, `clipDuration = 2.5`,
`pendingSilence = 0.3`: `targetRatio = 0.92 = 23/25` and the speed factor is
`25/23 ≈ 1.087`; on stretch failure, silence of `2.3 s`. -/
theorem c5_stretch_factor_witness :
    reconcile 2 (5 / 2) (3 / 10) true = ClipOut.stretched (5 / 2) (25 / 23) ∧
    reconcile 2 (5 / 2) (3 / 10) false = ClipOut.silenceRep (23 / 10) := by
  have h := c5_stretch_factor 2 (5 / 2) (3 / 10) (by decide!) (by decide!)
  exact ⟨h.1.trans (by decide!), h.2.trans (by decide!)⟩

/-- C7: in the pad regime (`theta >= 1`) the Reconciler prepends exactly
`pendingSilence` seconds of silence to the untouched clip, so the chunk
duration before the trailing-silence correction is
`clipDuration + pendingSilence`. -/
theorem c7_pad_regime (lo lt p : ℚ) (ok : Bool) (h : 1 ≤ lo / lt) :
    reconcile lo lt p ok = ClipOut.padded p lt ∧
    (ClipOut.padded p lt).duration = lt + p := by
  have hs := (selectRegime_pad_iff (lo / lt)).mpr (Or.inl h)
  constructor
  · simp [reconcile, hs]
  · simp [ClipOut.duration]
    ring

/-- Witness for C7, the spec scenario C: `slot = 3.0`, `clipDuration = 2.0`
(`theta = 1.5`): the clip is padded and its duration becomes `2.0 + 0.3`. -/
theorem c7_pad_regime_witness :
    reconcile 3 2 (3 / 10) true = ClipOut.padded (3 / 10) 2 ∧
    (ClipOut.padded (3 / 10) 2).duration = 2 + 3 / 10 :=
  c7_pad_regime 3 2 (3 / 10) true (by decide!)

lemma silenceSplit_sum (g : ℚ) : (silenceSplit g).1 + (silenceSplit g).2 = g := by
  unfold silenceSplit
  split_ifs with h <;> norm_num

lemma silenceSplit_bounds (g : ℚ) (hg : 0 ≤ g) :
    0 ≤ (silenceSplit g).1 ∧ (silenceSplit g).1 ≤ (0.8 : ℚ) := by
  unfold silenceSplit
  split_ifs with h
  · exact ⟨by norm_num, by norm_num⟩
  · exact ⟨hg, (not_le.mp h).le⟩

lemma runAux_pending_bounds :
    ∀ (sents : List Sentence) (p : ℚ) (logs : List IterRec),
      0 ≤ p → p ≤ (0.8 : ℚ) → runAux p sents = some logs →
      ∀ it ∈ logs,
        (0 ≤ it.pendingIn ∧ it.pendingIn ≤ (0.8 : ℚ)) ∧
        (0 ≤ it.pendingOut ∧ it.pendingOut ≤ (0.8 : ℚ)) := by
  intro sents
  induction sents with
  | nil =>
    intro p logs _ _ h it hit
    simp only [runAux] at h
    injection h with h
    subst h
    simp at hit
  | cons s rest ih =>
    intro p logs hp0 hp8 h it hit
    cases hc : s.clipMs with
    | none =>
      simp only [runAux, hc] at h
      rcases Option.map_eq_some'.mp h with ⟨tl, htl, heq⟩
      subst heq
      rcases List.mem_cons.mp hit with rfl | hmem
      · exact ⟨⟨hp0, hp8⟩, hp0, hp8⟩
      · exact ih p tl hp0 hp8 htl it hmem
    | some n =>
      simp only [runAux, hc] at h
      split at h
      · exact absurd h (by simp)
      · cases rest with
        | nil =>
          injection h with h
          subst h
          rcases List.mem_cons.mp hit with rfl | hmem
          · exact ⟨⟨hp0, hp8⟩, hp0, hp8⟩
          · simp at hmem
        | cons next rest2 =>
          rcases Option.map_eq_some'.mp h with ⟨tl, htl, heq⟩
          subst heq
          have hb := silenceSplit_bounds (max (next.span.start - s.span.stop) 0)
            (le_max_right _ _)
          rcases List.mem_cons.mp hit with rfl | hmem
          · exact ⟨⟨hp0, hp8⟩, hb⟩
          · exact ih _ tl hb.1 hb.2 htl it hmem

/-- C2 counterexample: a two-sentence run where the first synthesis fails.
The emitted silences (leading prefix plus per-sentence trailing silences)
sum to `0`, while the inter-sentence gaps plus the final trailing pad sum
to `1`: the gap after the failed sentence is discarded, so the claimed
global equality does not hold. -/
theorem c2_silence_sum_cex :
    runAll [⟨⟨0, 1⟩, none, true⟩, ⟨⟨2, 3⟩, some 1350, true⟩] 3
      = some (0, [⟨0, 0, none⟩, ⟨0, 0, some ⟨ClipOut.padded 0 1, 0, 0⟩⟩], 0) ∧
    (0 : ℚ) + trailingSum [⟨0, 0, none⟩, ⟨0, 0, some ⟨ClipOut.padded 0 1, 0, 0⟩⟩]
      ≠ gapsSum [⟨⟨0, 1⟩, none, true⟩, ⟨⟨2, 3⟩, some 1350, true⟩] + 0 := by
  decide!

/-- C2 (amended): pause duration is conserved gap by gap, not as the
claimed global sum. Every tracker split returns a credit and a literal
silence summing exactly to its input gap; consequently, for every
synthesized sentence with a successor, the credit carried forward plus
the extra silence appended now equals the original inter-sentence gap,
and the leading gap equals the initial credit plus the emitted leading
prefix. Gaps following a sentence whose synthesis failed are discarded,
and the final trailing pad is additional silence not drawn from any gap. -/
theorem c2_gap_conservation :
    (∀ g : ℚ, (silenceSplit g).1 + (silenceSplit g).2 = g) ∧
    (∀ (p : ℚ) (s next : Sentence) (rest : List Sentence)
        (logs : List IterRec) (n : ℕ) (en : IterRec) (e : EmitInfo),
      s.clipMs = some n → runAux p (s :: next :: rest) = some logs →
      logs.head? = some en → en.emitted = some e →
      en.pendingOut + e.extra = max (next.span.start - s.span.stop) 0) ∧
    (∀ (s0 : Sentence) (rest : List Sentence) (videoLen pre pad : ℚ)
        (logs : List IterRec),
      runAll (s0 :: rest) videoLen = some (pre, logs, pad) →
      (silenceSplit s0.span.start).1 + pre = s0.span.start) := by
  refine ⟨silenceSplit_sum, ?_, ?_⟩
  · intro p s next rest logs n en e hc h hhead hem
    simp only [runAux, hc] at h
    split at h
    · exact absurd h (by simp)
    · rcases Option.map_eq_some'.mp h with ⟨tl, htl, heq⟩
      subst heq
      simp only [List.head?] at hhead
      injection hhead with hen
      subst hen
      simp only at hem
      injection hem with he
      subst he
      simpa [trackerStep] using
        silenceSplit_sum (max (next.span.start - s.span.stop) 0)
  · intro s0 rest videoLen pre pad logs h
    simp only [runAll] at h
    rcases Option.map_eq_some'.mp h with ⟨logs0, _, heq⟩
    injection heq with h1 h23
    subst h1
    exact silenceSplit_sum s0.span.start

/-- Witness for C2 on a concrete two-sentence run with a `1 s` gap:
the credit carried to the next sentence (`0.8`) plus the extra silence
appended now (`0.2`) equals the gap. -/
theorem c2_gap_conservation_witness :
    (⟨0, 4 / 5, some ⟨ClipOut.padded 0 1, 0, 1 / 5⟩⟩ : IterRec).pendingOut
      + (⟨ClipOut.padded 0 1, 0, 1 / 5⟩ : EmitInfo).extra
      = max ((⟨⟨2, 3⟩, some 1350, true⟩ : Sentence).span.start
          - (⟨⟨0, 1⟩, some 1350, true⟩ : Sentence).span.stop) 0 :=
  c2_gap_conservation.2.1 0 ⟨⟨0, 1⟩, some 1350, true⟩ ⟨⟨2, 3⟩, some 1350, true⟩
    [] [⟨0, 4 / 5, some ⟨ClipOut.padded 0 1, 0, 1 / 5⟩⟩,
        ⟨4 / 5, 4 / 5, some ⟨ClipOut.padded (4 / 5) 1, 0, 0⟩⟩]
    1350 ⟨0, 4 / 5, some ⟨ClipOut.padded 0 1, 0, 1 / 5⟩⟩
    ⟨ClipOut.padded 0 1, 0, 1 / 5⟩
    (by decide!) (by decide!) (by decide!) (by decide!)

/-- C3: for arbitrary non-negative leading gap, the carried credit
`previous_silence_time` lies in `[0, 0.8]` on entry and exit of every
loop iteration, i.e. after the initialization and after every
per-sentence tracker update. -/
theorem c3_pending_bounds (s0 : Sentence) (rest : List Sentence)
    (videoLen pre pad : ℚ) (logs : List IterRec)
    (h0 : 0 ≤ s0.span.start)
    (h : runAll (s0 :: rest) videoLen = some (pre, logs, pad)) :
    ∀ it ∈ logs,
      (0 ≤ it.pendingIn ∧ it.pendingIn ≤ (0.8 : ℚ)) ∧
      (0 ≤ it.pendingOut ∧ it.pendingOut ≤ (0.8 : ℚ)) := by
  simp only [runAll] at h
  rcases Option.map_eq_some'.mp h with ⟨logs0, hrun, heq⟩
  injection heq with h1 h23
  injection h23 with h2 h3
  subst h2
  have hb := silenceSplit_bounds s0.span.start h0
  exact runAux_pending_bounds _ _ _ hb.1 hb.2 hrun

/-- Witness for C3 on a concrete run with leading gap `0.5`: the single
iteration has credit `1/2` on entry and exit, inside `[0, 0.8]`. -/
theorem c3_pending_bounds_witness :
    ((0 : ℚ) ≤
        (⟨1 / 2, 1 / 2, some ⟨ClipOut.stretched 1 1, 0, 0⟩⟩ : IterRec).pendingIn ∧
      (⟨1 / 2, 1 / 2, some ⟨ClipOut.stretched 1 1, 0, 0⟩⟩ : IterRec).pendingIn
        ≤ (0.8 : ℚ)) ∧
    ((0 : ℚ) ≤
        (⟨1 / 2, 1 / 2, some ⟨ClipOut.stretched 1 1, 0, 0⟩⟩ : IterRec).pendingOut ∧
      (⟨1 / 2, 1 / 2, some ⟨ClipOut.stretched 1 1, 0, 0⟩⟩ : IterRec).pendingOut
        ≤ (0.8 : ℚ)) :=
  c3_pending_bounds ⟨⟨1 / 2, 1⟩, some 1350, true⟩ [] 2 0 1
    [⟨1 / 2, 1 / 2, some ⟨ClipOut.stretched 1 1, 0, 0⟩⟩]
    (by decide!) (by decide!) _ (by decide!)

/-- C9: when the TTS collaborator returns nothing for a sentence, the loop
skips it entirely: no chunk is written, the carried credit reaching the
next synthesized sentence is unchanged, and the remaining run proceeds
exactly as if started after the skipped sentence, so its slot and its
following gap are omitted from the assembled track. -/
theorem c9_tts_failure_skip (p : ℚ) (s : Sentence) (rest : List Sentence)
    (logs : List IterRec) (hc : s.clipMs = none)
    (h : runAux p (s :: rest) = some logs) :
    ∃ tl, logs = ⟨p, p, none⟩ :: tl ∧ runAux p rest = some tl ∧
      (⟨p, p, none⟩ : IterRec).chunkDur = 0 ∧
      trailingSum logs = trailingSum tl := by
  simp only [runAux, hc] at h
  rcases Option.map_eq_some'.mp h with ⟨tl, htl, heq⟩
  subst heq
  refine ⟨tl, rfl, htl, rfl, ?_⟩
  simp [trailingSum]

/-- Witness for C9: a one-sentence run whose synthesis fails, entered with
credit `1/4`: the log is a single skipped entry preserving the credit. -/
theorem c9_tts_failure_skip_witness :
    ([⟨1 / 4, 1 / 4, none⟩] : List IterRec)
      = ⟨1 / 4, 1 / 4, none⟩ :: ([] : List IterRec) ∧
    runAux (1 / 4) [] = some [] ∧
    (⟨1 / 4, 1 / 4, none⟩ : IterRec).chunkDur = 0 ∧
    trailingSum [⟨1 / 4, 1 / 4, none⟩] = trailingSum [] := by
  obtain ⟨tl, h1, h2, h3, h4⟩ :=
    c9_tts_failure_skip (1 / 4) ⟨⟨0, 1⟩, none, true⟩ [] [⟨1 / 4, 1 / 4, none⟩]
      (by decide!) (by decide!)
  injection h1 with h5 h6
  subst h6
  exact ⟨rfl, h2, h3, h4⟩

/-- C10: there is a synthesized clip of at most 350 ms that the fixed
350 ms tail trim consumes entirely, after which `theta = lo / lt` divides
by zero and the run aborts instead of selecting a regime. -/
theorem c10_division_by_zero :
    ∃ n : ℕ, n ≤ 350 ∧ trimClip n = 0 ∧
      runAll [⟨⟨0, 1⟩, some n, true⟩] 10 = none :=
  ⟨350, by decide!, by decide!, by decide!⟩

lemma foldl_attrStep_const (s e : ℚ) (l : List Interval) (b : ℕ × ℚ)
    (h : ∀ iv ∈ l, codeOverlap s e iv ≤ b.2) :
    l.foldl (attrStep s e) b = b := by
  induction l generalizing b with
  | nil => rfl
  | cons hd tl ih =>
    have hstep : attrStep s e b hd = b := by
      unfold attrStep
      rw [if_neg (not_lt.mpr (h hd (List.mem_cons_self _ _)))]
    rw [List.foldl_cons, hstep]
    exact ih b (fun iv hiv => h iv (List.mem_cons_of_mem _ hiv))

lemma foldl_attrStep_argmax (s e : ℚ) :
    ∀ (l : List Interval) (b : ℕ × ℚ) (iv : Interval),
      0 ≤ b.2 → b.2 < codeOverlap s e iv → iv ∈ l →
      (∀ jv ∈ l, jv ≠ iv → codeOverlap s e jv < codeOverlap s e iv) →
      l.foldl (attrStep s e) b = (iv.speaker, codeOverlap s e iv) := by
  intro l
  induction l with
  | nil =>
    intro b iv _ _ hmem _
    exact absurd hmem (List.not_mem_nil _)
  | cons hd tl ih =>
    intro b iv hb0 hbi hmem hmax
    rw [List.foldl_cons]
    by_cases hhd : hd = iv
    · subst hhd
      have hstep : attrStep s e b hd = (hd.speaker, codeOverlap s e hd) := by
        unfold attrStep
        rw [if_pos hbi]
      rw [hstep]
      apply foldl_attrStep_const
      intro jv hjv
      by_cases hje : jv = hd
      · subst hje
        exact le_refl _
      · exact (hmax jv (List.mem_cons_of_mem _ hjv) hje).le
    · have hmem2 : iv ∈ tl := by
        rcases List.mem_cons.mp hmem with h1 | h1
        · exact absurd h1.symm hhd
        · exact h1
      have hmax2 : ∀ jv ∈ tl, jv ≠ iv →
          codeOverlap s e jv < codeOverlap s e iv :=
        fun jv hjv hne => hmax jv (List.mem_cons_of_mem _ hjv) hne
      have hhdlt : codeOverlap s e hd < codeOverlap s e iv :=
        hmax hd (List.mem_cons_self _ _) hhd
      have hstep : attrStep s e b hd =
          if b.2 < codeOverlap s e hd then (hd.speaker, codeOverlap s e hd)
          else b := rfl
      rw [hstep]
      split_ifs with hrep
      · exact ih (hd.speaker, codeOverlap s e hd) iv (hb0.trans hrep.le)
          hhdlt hmem2 hmax2
      · exact ih b iv hb0 hbi hmem2 hmax2

/-- C6 counterexample: sentence span `(3.5, 5)`, intervals
`(3.0, 4.9) ↦ speaker 1` and `(4.2, 6.9) ↦ speaker 2`. Under the spec's
overlap formula on the raw endpoints, interval 1 has the strictly greatest
positive overlap (`1.4` against `0.8`), yet the code truncates the
endpoints to whole seconds and assigns speaker 2. -/
theorem c6_overlap_cex :
    attributeSpeaker [⟨3, 49 / 10, 1⟩, ⟨21 / 5, 69 / 10, 2⟩] 0 (7 / 2) 5 = 2 ∧
    get_overlap ((7 / 2 : ℚ), (5 : ℚ)) (3, 49 / 10) = 7 / 5 ∧
    get_overlap ((7 / 2 : ℚ), (5 : ℚ)) (21 / 5, 69 / 10) = 4 / 5 ∧
    (4 / 5 : ℚ) < 7 / 5 ∧
    attributeSpeakerSpec [⟨3, 49 / 10, 1⟩, ⟨21 / 5, 69 / 10, 2⟩] 0 (7 / 2) 5 = 1 ∧
    attributeSpeaker [⟨3, 49 / 10, 1⟩, ⟨21 / 5, 69 / 10, 2⟩] 0 (7 / 2) 5 ≠ 1 := by
  decide!

/-- C6 (amended): the Speaker Attributor assigns the speaker of the
interval whose overlap with the sentence — computed on the interval's
`int()`-truncated endpoints — is strictly greatest, iterating intervals in
a fixed order; and when no interval has positive (truncated) overlap it
assigns the globally most frequent speaker, as found at the call site. -/
theorem c6_attribution (rolls : List Interval) (dflt : ℕ) (s e : ℚ) :
    ((∀ iv ∈ rolls, codeOverlap s e iv ≤ 0) →
      attributeSpeaker rolls dflt s e = dflt) ∧
    (∀ iv ∈ rolls, 0 < codeOverlap s e iv →
      (∀ jv ∈ rolls, jv ≠ iv → codeOverlap s e jv < codeOverlap s e iv) →
      attributeSpeaker rolls dflt s e = iv.speaker) ∧
    (∀ d, pyMaxByCount (rolls.map Interval.speaker) = some d →
      (∀ iv ∈ rolls, codeOverlap s e iv ≤ 0) →
      speakerFor rolls s e = some d) := by
  refine ⟨?_, ?_, ?_⟩
  · intro h
    unfold attributeSpeaker
    rw [foldl_attrStep_const s e rolls (dflt, 0) h]
  · intro iv hmem hpos hmax
    unfold attributeSpeaker
    rw [foldl_attrStep_argmax s e rolls (dflt, 0) iv (le_refl 0) hpos hmem hmax]
  · intro d hd hno
    unfold speakerFor
    rw [hd]
    refine congrArg some ?_
    show (rolls.foldl (attrStep s e) (d, 0)).1 = d
    rw [foldl_attrStep_const s e rolls (d, 0) hno]

/-- Witness for C6 at the concrete interval set of the counterexample:
interval 2 has the strictly greatest truncated overlap, and it is indeed
the one assigned. -/
theorem c6_attribution_witness :
    attributeSpeaker [⟨3, 49 / 10, 1⟩, ⟨21 / 5, 69 / 10, 2⟩] 0 (7 / 2) 5
      = (⟨21 / 5, 69 / 10, 2⟩ : Interval).speaker :=
  (c6_attribution [⟨3, 49 / 10, 1⟩, ⟨21 / 5, 69 / 10, 2⟩] 0 (7 / 2) 5).2.1
    ⟨21 / 5, 69 / 10, 2⟩ (by decide!) (by decide!) (by decide!)

/-- C8: if a sentence has no characters matched to any word timestamp,
the segmenter's span computation is an error (the uncaught `ValueError`
of `min` on an empty sequence aborts the run) and never an `ok` span,
so no default or zero timestamps are produced. -/
theorem c8_segmenter_error (ts : List WordTok) (off len : ℕ)
    (h : collectTimes ts off len = []) :
    sentenceSpan ts off len = Except.error () ∧
    ∀ sp : ℚ × ℚ, sentenceSpan ts off len ≠ Except.ok sp := by
  have herr : sentenceSpan ts off len = Except.error () := by
    unfold sentenceSpan
    rw [h]
    rfl
  refine ⟨herr, fun sp hco => ?_⟩
  rw [herr] at hco
  exact Except.noConfusion hco

/-- Witness for C8: an empty token list and a one-character sentence
produce no matches, and the span computation errors out. -/
theorem c8_segmenter_error_witness :
    sentenceSpan [] 0 1 = Except.error () ∧
    sentenceSpan [] 0 1 ≠ Except.ok ((0 : ℚ), (0 : ℚ)) :=
  ⟨(c8_segmenter_error [] 0 1 (by decide!)).1,
    (c8_segmenter_error [] 0 1 (by decide!)).2 ((0 : ℚ), (0 : ℚ))⟩

end ViDubb
